import Mathlib

/-!
Verification of the ANAHATA real-time playback engine
(`src/crates/ANAHATA/src/main.rs` and `globals.rs`).

The development shallowly embeds the parts of the player the specification
talks about:

* the rtrb single-producer/single-consumer ring buffer, modelled as a
  functional fixed-capacity FIFO queue of stereo frames (`tryPush`/`tryPop`);
* the JACK `process_callback` closure (`process_callback`);
* the feeder loop `playback_thread`: the `ChangeSong`, `SkipForward`,
  `SkipBackward` handlers, the chunked push into the ring buffer, and the
  end-of-track wrap;
* the decoder `decode_flac_to_vec` / `decode_audio_buffer`;
* the waveform analyzer `generate_waveform`.

Numeric modelling choices, used consistently below:

* `u64`/`usize` values (playhead, position, duration, lengths) are `Nat`.
  No arithmetic in the modelled paths can overflow 64 bits for any real
  track (playhead is bounded by the in-memory song length), so no `% 2^64`
  is inserted.
* audio samples (`f32`) are `ℚ`.  The decimal literals of the source
  (`0.9961f32`, `128.0`, ...) are read as the corresponding rationals.
* `MS_PER_SAMPLE`-based millisecond computation
  `(n as f64 * (1000.0/48000.0)) as u64` is modelled as the exact
  `n * 1000 / 48000` in `Nat`.  The `f64` code agrees with this floor for
  every `n < 2^54 / 3`: `fl(1/48) = 1/48 - 1/(3*2^58)` exactly, so the real
  product is `(n/48) * (1 - 2^-54)`, which is strictly within half an ulp
  below `n/48` and rounds back to the same floor; any playhead of an
  in-memory track is far below that bound.
-/

/-- A stereo frame: (left, right) sample pair, `f32` modelled as `ℚ`. -/
abbrev Frame : Type := ℚ × ℚ

/-- The silent frame `(0.0, 0.0)`. -/
def silence : Frame := (0, 0)

/-! ### Ring buffer (rtrb SPSC queue, functional model)

The rtrb ring buffer of capacity `cap` is modelled by the list of frames
currently buffered, in push order (head = oldest).  `producer.push` fails
exactly when the buffer is full; `consumer.pop` fails exactly when it is
empty.  This is the standard functional contract of an SPSC queue under the
single-producer/single-consumer discipline the program observes. -/

/-- `producer.push(f)`: fails (returns `none`) iff the buffer is full. -/
def tryPush (cap : Nat) (buf : List Frame) (f : Frame) : Option (List Frame) :=
  if buf.length = cap then none else some (buf ++ [f])

/-- `consumer.pop()`: returns the oldest frame and the rest, or `none` if empty. -/
def tryPop (buf : List Frame) : Option (Frame × List Frame) :=
  match buf with
  | [] => none
  | f :: rest => some (f, rest)

/-- `producer.slots()`: number of free slots. -/
def slots (cap : Nat) (buf : List Frame) : Nat := cap - buf.length

/-! ### Output callback (`process_callback`, main.rs:407-430)

The callback receives one block of `n` output slots.  If `IS_PLAYING` is
false it writes silence to every slot without touching the ring buffer and
returns.  Otherwise each slot pops one frame: on success the popped frame
is written, on failure (underrun) silence.  `callbackLoop` returns the
block written and the buffer that remains. -/

def callbackLoop (buf : List Frame) (n : Nat) : List Frame × List Frame :=
  match n with
  | 0 => ([], buf)
  | n + 1 =>
    match tryPop buf with
    | some (f, rest) =>
      let out := callbackLoop rest n
      (f :: out.1, out.2)
    | none =>
      let out := callbackLoop buf n
      (silence :: out.1, out.2)

def process_callback (is_playing : Bool) (buf : List Frame) (block_size : Nat) :
    List Frame × List Frame :=
  if is_playing then callbackLoop buf block_size
  else (List.replicate block_size silence, buf)

/-! ### Transport arithmetic (playback_thread constants, main.rs:658-661) -/

/-- `SKIP_SECONDS * SAMPLES_PER_SECOND = 5 * 48000` frames. -/
def skip_amount : Nat := 5 * 48000

/-- `(new_pos as f64 * MS_PER_SAMPLE) as u64`, exact model (see header). -/
def ms_position (pos : Nat) : Nat := pos * 1000 / 48000

/-- `SkipForward` target (main.rs:684-688): clamp `pos + skip` to the song length. -/
def skip_forward (pos len : Nat) : Nat :=
  if pos + skip_amount ≥ len then len else pos + skip_amount

/-- `SkipBackward` target (main.rs:696-700): clamp `pos - skip` at zero. -/
def skip_backward (pos : Nat) : Nat :=
  if pos ≤ skip_amount then 0 else pos - skip_amount

/-! ### Feeder push loop and the playback step system (C1)

`playback_thread` (main.rs:708-729): while `IS_PLAYING`, if the playhead has
reached the end of the song it wraps to 0; otherwise, if the ring buffer
reports at least 1024 free slots, up to `chunk_size = min(1024, len - pos)`
frames `song[pos..pos+chunk_size]` are pushed one by one (`break` on the
first failed push), and the playhead is advanced by `chunk_size`
unconditionally.  The output callback pops one frame per output slot.
`EngineStep` is the interleaving of these producer and consumer iterations
together with `IS_PLAYING` stores (pause/resume). -/

/-- The `for i in 0..chunk_size { if push fails break }` loop: pushes frames in
order, stopping at the first failed push, and returns the resulting buffer. -/
def pushLoop (cap : Nat) (buf : List Frame) (frames : List Frame) : List Frame :=
  match frames with
  | [] => buf
  | f :: rest =>
    match tryPush cap buf f with
    | some buf2 => pushLoop cap buf2 rest
    | none => buf

/-- The chunk size `1024.min(song.len() - current_pos)` of one feeder iteration. -/
def chunkSize (len pos : Nat) : Nat := min 1024 (len - pos)

/-- Shared state visible to the feeder and the callback: `IS_PLAYING`, `PLAYHEAD`,
the ring-buffer contents, and (ghost) the list of frames successfully popped so
far, in pop order. -/
structure EngineState where
  playing : Bool
  playhead : Nat
  buf : List Frame
  popped : List Frame
deriving DecidableEq

/-- One iteration of the feeder loop or of one output-callback slot, or an
`IS_PLAYING` store by the control thread.  `cap` is the ring-buffer capacity,
`song` the decoded track. -/
inductive EngineStep (cap : Nat) (song : List Frame) : EngineState → EngineState → Prop
  /-- main.rs:710-713: playhead past the end wraps to 0 (loop-the-track design). -/
  | feed_wrap (s : EngineState) :
      s.playing = true → song.length ≤ s.playhead →
      EngineStep cap song s ⟨s.playing, 0, s.buf, s.popped⟩
  /-- main.rs:716-728: with at least 1024 free slots, push one chunk and advance. -/
  | feed_push (s : EngineState) :
      s.playing = true → s.playhead < song.length → 1024 ≤ slots cap s.buf →
      EngineStep cap song s
        ⟨s.playing, s.playhead + chunkSize song.length s.playhead,
         pushLoop cap s.buf ((song.drop s.playhead).take (chunkSize song.length s.playhead)),
         s.popped⟩
  /-- main.rs:421-423: one callback slot pops the oldest frame and writes it. -/
  | pop_ok (s : EngineState) (f : Frame) (rest : List Frame) :
      s.playing = true → s.buf = f :: rest →
      EngineStep cap song s ⟨s.playing, s.playhead, rest, s.popped ++ [f]⟩
  /-- main.rs:424-427: a pop on an empty buffer writes silence and changes nothing. -/
  | pop_empty (s : EngineState) :
      s.playing = true → s.buf = [] →
      EngineStep cap song s s
  /-- `IS_PLAYING.store` from the control thread (pause/resume toggle). -/
  | set_playing (s : EngineState) (b : Bool) :
      EngineStep cap song s ⟨b, s.playhead, s.buf, s.popped⟩

/-- States reachable from the post-track-load state (playhead 0, empty buffer,
nothing popped, paused) by interleaved feeder/callback/control iterations. -/
inductive EngineReachable (cap : Nat) (song : List Frame) : EngineState → Prop
  | init : EngineReachable cap song ⟨false, 0, [], []⟩
  | step {s t : EngineState} :
      EngineReachable cap song s → EngineStep cap song s t →
      EngineReachable cap song t

/-- `k` whole copies of the song, concatenated (accounts for end-of-track wraps). -/
def copiesOf (k : Nat) (song : List Frame) : List Frame :=
  (List.replicate k song).flatten

/-- The C1 invariant: the playhead never passes the end of the song, and the
frames popped so far followed by the frames still buffered are exactly the
decoded stream (some number of whole loops of the song, then the first
`playhead` frames of the current pass). -/
def engineInv (song : List Frame) (s : EngineState) : Prop :=
  s.playhead ≤ song.length ∧
  ∃ k, s.popped ++ s.buf = copiesOf k song ++ song.take s.playhead

/-! ### Transport-state invariant (C3) and skip clamping (C4)

The transport fields `PLAYHEAD` and `CURRENT_POSITION` (globals.rs) are
mutated by the feeder loop at five places: the `ChangeSong` handler
(main.rs:665-679, zeroing both before decode and, on success, leaving them
zeroed), the `SkipForward`/`SkipBackward` handlers (main.rs:681-704), the
end-of-track wrap (main.rs:710-713) and the chunk advance
(main.rs:716-728). -/

/-- Transport state relevant to C3: the loaded song length and the two
global counters. -/
structure TransportState where
  len : Nat
  playhead : Nat
  position : Nat
deriving DecidableEq

/-- One feeder-loop mutation of the transport state. -/
inductive FeederOp where
  /-- `ChangeSong` with a successful decode of a `newLen`-frame song. -/
  | change_song (newLen : Nat)
  /-- `ChangeSong` whose decode fails: only the zeroing stores ran. -/
  | change_song_failed
  | skip_forward
  | skip_backward
  /-- One playing feeder iteration: end-of-track wrap, or (when the ring
  buffer reported ≥ 1024 free slots, `room = true`) one chunk advance. -/
  | feed (room : Bool)
deriving DecidableEq

def applyOp : FeederOp → TransportState → TransportState
  | .change_song newLen, _ => ⟨newLen, 0, 0⟩
  | .change_song_failed, s => ⟨s.len, 0, 0⟩
  | .skip_forward, s =>
    let np := skip_forward s.playhead s.len
    ⟨s.len, np, ms_position np⟩
  | .skip_backward, s =>
    let np := skip_backward s.playhead
    ⟨s.len, np, ms_position np⟩
  | .feed room, s =>
    if s.len ≤ s.playhead then ⟨s.len, 0, 0⟩
    else if room then
      let np := s.playhead + chunkSize s.len s.playhead
      ⟨s.len, np, ms_position np⟩
    else s

/-- C3's invariant: `0 ≤ playhead ≤ len` (the lower bound is inherent in
`Nat`) and the cached `position` equals `playhead * 1000 / 48000`. -/
def transportInv (s : TransportState) : Prop :=
  s.playhead ≤ s.len ∧ s.position = ms_position s.playhead

/-! ### Decoder sample normalization (`decode_audio_buffer`, main.rs:577-649, C8)

One decoded symphonia packet buffer.  Channel 0 and channel 1 are the two
sample vectors that `buf.chan(0)` / `buf.chan(1)` expose; integer sample
types carry `Nat`/`Int` values, float types carry the sample values
themselves (as `ℚ`). -/

inductive AudioBufferRef where
  | f32 (ch0 ch1 : List ℚ)
  | f64 (ch0 ch1 : List ℚ)
  | u16 (ch0 ch1 : List Nat)
  | u32 (ch0 ch1 : List Nat)
  | u8 (ch0 ch1 : List Nat)
  | s8 (ch0 ch1 : List Int)
  | s16 (ch0 ch1 : List Int)
  | u24 (ch0 ch1 : List Nat)
  | s24 (ch0 ch1 : List Int)
  | s32 (ch0 ch1 : List Int)
deriving DecidableEq

/-- `decode_audio_buffer`: zips the two channels and maps each sample pair
to a stereo frame with the divisor the source uses per representation
(`u16::MAX`, `u32::MAX`, `128`, `i16::MAX = 32767`, `8388607` for both
24-bit kinds, `i32::MAX`). -/
def decode_audio_buffer : AudioBufferRef → List Frame
  | .f32 c0 c1 => c0.zip c1
  | .f64 c0 c1 => c0.zip c1
  | .u16 c0 c1 => (c0.zip c1).map (fun p => ((p.1 : ℚ) / 65535, (p.2 : ℚ) / 65535))
  | .u32 c0 c1 => (c0.zip c1).map (fun p => ((p.1 : ℚ) / 4294967295, (p.2 : ℚ) / 4294967295))
  | .u8 c0 c1 => (c0.zip c1).map (fun p => (((p.1 : ℚ) - 128) / 128, ((p.2 : ℚ) - 128) / 128))
  | .s8 c0 c1 => (c0.zip c1).map (fun p => ((p.1 : ℚ) / 128, (p.2 : ℚ) / 128))
  | .s16 c0 c1 => (c0.zip c1).map (fun p => ((p.1 : ℚ) / 32767, (p.2 : ℚ) / 32767))
  | .u24 c0 c1 => (c0.zip c1).map (fun p => ((p.1 : ℚ) / 8388607, (p.2 : ℚ) / 8388607))
  | .s24 c0 c1 => (c0.zip c1).map (fun p => ((p.1 : ℚ) / 8388607, (p.2 : ℚ) / 8388607))
  | .s32 c0 c1 => (c0.zip c1).map (fun p => ((p.1 : ℚ) / 2147483647, (p.2 : ℚ) / 2147483647))

/-- The sample values each representation can actually carry. -/
def validBuffer : AudioBufferRef → Prop
  | .f32 _ _ => True
  | .f64 _ _ => True
  | .u16 c0 c1 => (∀ x ∈ c0, x < 65536) ∧ (∀ x ∈ c1, x < 65536)
  | .u32 c0 c1 => (∀ x ∈ c0, x < 4294967296) ∧ (∀ x ∈ c1, x < 4294967296)
  | .u8 c0 c1 => (∀ x ∈ c0, x < 256) ∧ (∀ x ∈ c1, x < 256)
  | .s8 c0 c1 => (∀ x ∈ c0, -128 ≤ x ∧ x < 128) ∧ (∀ x ∈ c1, -128 ≤ x ∧ x < 128)
  | .s16 c0 c1 => (∀ x ∈ c0, -32768 ≤ x ∧ x < 32768) ∧ (∀ x ∈ c1, -32768 ≤ x ∧ x < 32768)
  | .u24 c0 c1 => (∀ x ∈ c0, x < 16777216) ∧ (∀ x ∈ c1, x < 16777216)
  | .s24 c0 c1 => (∀ x ∈ c0, -8388608 ≤ x ∧ x < 8388608) ∧
      (∀ x ∈ c1, -8388608 ≤ x ∧ x < 8388608)
  | .s32 c0 c1 => (∀ x ∈ c0, -2147483648 ≤ x ∧ x < 2147483648) ∧
      (∀ x ∈ c1, -2147483648 ≤ x ∧ x < 2147483648)

/-- The range the decoder actually maps each representation's valid samples
into.  Unsigned 8/16/32-bit and signed 8-bit land inside `[-1, 1]`; signed
16/24/32-bit fall just below `-1` at the most negative sample; unsigned
24-bit divides by the signed half-scale `8388607` without centering and so
reaches up to `16777215/8388607 > 2`; floats pass through unchanged. -/
def decodeBound : AudioBufferRef → ℚ → Prop
  | .f32 c0 c1, v => v ∈ c0 ∨ v ∈ c1
  | .f64 c0 c1, v => v ∈ c0 ∨ v ∈ c1
  | .u16 _ _, v => 0 ≤ v ∧ v ≤ 1
  | .u32 _ _, v => 0 ≤ v ∧ v ≤ 1
  | .u8 _ _, v => -1 ≤ v ∧ v ≤ 1
  | .s8 _ _, v => -1 ≤ v ∧ v ≤ 1
  | .s16 _ _, v => (-32768 : ℚ) / 32767 ≤ v ∧ v ≤ 1
  | .u24 _ _, v => 0 ≤ v ∧ v ≤ (16777215 : ℚ) / 8388607
  | .s24 _ _, v => (-8388608 : ℚ) / 8388607 ≤ v ∧ v ≤ 1
  | .s32 _ _, v => (-2147483648 : ℚ) / 2147483647 ≤ v ∧ v ≤ 1

/-! ### `decode_flac_to_vec` and the `ChangeSong` handler (C5, C6)

`decode_flac_to_vec` (main.rs:511-575) is a chain of fallible steps, each
ended with `.expect(msg)`: a failure at any of them panics the calling
thread (the feeder).  `DecodeInput` abstracts what the file system and
symphonia return at each step; a packet is `none` when its `decode` call
would fail, otherwise the decoded `AudioBufferRef`.  The model returns
`Except String` where the source panics, carrying the source's `.expect`
message. -/

structure DecodeInput where
  /-- `File::open` succeeds. -/
  file_open_ok : Bool
  /-- `Mmap::map` succeeds. -/
  mmap_ok : Bool
  /-- `get_probe().format(..)` succeeds. -/
  probe_ok : Bool
  /-- the packets collected by the `next_packet` loop, each with its decode
  outcome (`none` = `decoder.decode` would fail on it). -/
  packets : List (Option AudioBufferRef)
  /-- `format.default_track()` returns a track. -/
  has_default_track : Bool
  /-- `codec_params.n_frames` metadata. -/
  n_frames : Option Nat
  /-- `make(&codec_params, ..)` succeeds (only reached when packets exist). -/
  decoder_ok : Bool
deriving DecidableEq

/-- `decode_flac_to_vec`: each `.expect` becomes the corresponding error.
Packets are decoded independently (rayon `map_init`) and concatenated in
original packet order (`reduce_with` folds the per-packet sample vectors in
iteration order); an empty packet list yields `unwrap_or_default() = []`. -/
def decode_flac_to_vec (inp : DecodeInput) : Except String (List Frame) :=
  if ¬ inp.file_open_ok then .error "Failed to open file"
  else if ¬ inp.mmap_ok then .error "Failed to mmap file"
  else if ¬ inp.probe_ok then .error "Failed to probe media"
  else if ¬ inp.has_default_track then .error "No default track"
  else match inp.n_frames with
  | none => .error "Could not determine total number of frames"
  | some _ =>
    if inp.packets.isEmpty then .ok []
    else if ¬ inp.decoder_ok then .error "Failed to create decoder"
    else match inp.packets.mapM id with
    | none => .error "Failed to decode packet"
    | some bufs => .ok (bufs.map decode_audio_buffer).flatten

/-- One store to the shared globals (or the waveform side-channel send)
performed by the `ChangeSong` handler, in program order. -/
inductive StoreEv where
  | set_playing (b : Bool)
  | set_playhead (n : Nat)
  | set_position (n : Nat)
  | send_waveform
  | set_duration (n : Nat)
deriving DecidableEq

/-- The `ChangeSong` arm of the feeder loop (main.rs:665-680): the ordered
list of global stores it performs, and whether the thread panicked (decode
failure hits an `.expect`, killing the feeder thread before any further
store).  On success the published duration is
`(song.len() as f64 * MS_PER_SAMPLE) as u64 = ms_position song.length`. -/
def handleChangeSong (inp : DecodeInput) : List StoreEv × Bool :=
  match decode_flac_to_vec inp with
  | .error _ =>
    ([.set_playing false, .set_playhead 0, .set_position 0], true)
  | .ok song =>
    ([.set_playing false, .set_playhead 0, .set_position 0, .send_waveform,
      .set_duration (ms_position song.length), .set_playing true], false)

/-- The four shared transport globals a concurrent reader polls. -/
structure Globals where
  is_playing : Bool
  playhead : Nat
  position : Nat
  duration : Nat
deriving DecidableEq

def applyEv (g : Globals) : StoreEv → Globals
  | .set_playing b => { g with is_playing := b }
  | .set_playhead n => { g with playhead := n }
  | .set_position n => { g with position := n }
  | .send_waveform => g
  | .set_duration n => { g with duration := n }

/-- The globals after a prefix of the handler's stores have executed: what a
reader polling at that moment observes. -/
def applyEvs (g : Globals) (evs : List StoreEv) : Globals :=
  evs.foldl applyEv g

/-! ### Waveform analyzer (`generate_waveform`, main.rs:750-885, C9, C10)

Each bin is computed independently (every filter/accumulator variable is
declared inside the per-bin loop), so the bin loop is a map over bin
indices.  `f32::sqrt` is modelled by `Rat.sqrt` (exact on perfect squares,
in particular at 0, which is the only point the theorems below evaluate it
at). -/

structure FrequencyBand where
  rms_left : ℚ
  rms_right : ℚ
  peak_left : ℚ
  peak_right : ℚ
deriving DecidableEq

structure WaveformBin where
  low : FrequencyBand
  mid : FrequencyBand
  high : FrequencyBand
deriving DecidableEq

def zeroBand : FrequencyBand := ⟨0, 0, 0, 0⟩

/-- The all-zero bin pushed for a chunk starting at or past the song's end. -/
def zeroBin : WaveformBin := ⟨zeroBand, zeroBand, zeroBand⟩

/-- `coeff = exp(-2 pi cutoff / 48000)` constants of the source, as written. -/
def low_coeff : ℚ := 9961 / 10000

def mid_low_coeff : ℚ := 9961 / 10000

def mid_high_coeff : ℚ := 9484 / 10000

def high_coeff : ℚ := 9484 / 10000

/-- Per-chunk loop state: RMS accumulators, peak trackers and the one-pole
filter states, in source order (main.rs:800-822). -/
structure ChunkState where
  low_sum_l : ℚ
  low_sum_r : ℚ
  mid_sum_l : ℚ
  mid_sum_r : ℚ
  high_sum_l : ℚ
  high_sum_r : ℚ
  low_peak_l : ℚ
  low_peak_r : ℚ
  mid_peak_l : ℚ
  mid_peak_r : ℚ
  high_peak_l : ℚ
  high_peak_r : ℚ
  low_l : ℚ
  low_r : ℚ
  mid_low_l : ℚ
  mid_low_r : ℚ
  mid_high_l : ℚ
  mid_high_r : ℚ
  high_l : ℚ
  high_r : ℚ
deriving DecidableEq

def initChunkState : ChunkState :=
  ⟨0, 0, 0, 0, 0, 0, 0, 0, 0, 0, 0, 0, 0, 0, 0, 0, 0, 0, 0, 0⟩

/-- One iteration of the per-sample loop (main.rs:825-858): update the three
crossover filters, accumulate the squared band outputs, track the peaks. -/
def chunkStep (st : ChunkState) (fr : Frame) : ChunkState :=
  let left := fr.1
  let right := fr.2
  let low_l := st.low_l * low_coeff + left * (1 - low_coeff)
  let low_r := st.low_r * low_coeff + right * (1 - low_coeff)
  let mid_low_l := st.mid_low_l * mid_low_coeff + left * (1 - mid_low_coeff)
  let mid_low_r := st.mid_low_r * mid_low_coeff + right * (1 - mid_low_coeff)
  let mid_high_l := st.mid_high_l * mid_high_coeff + left * (1 - mid_high_coeff)
  let mid_high_r := st.mid_high_r * mid_high_coeff + right * (1 - mid_high_coeff)
  let mid_l := mid_high_l - mid_low_l
  let mid_r := mid_high_r - mid_low_r
  let high_l := left - (st.high_l * high_coeff + left * (1 - high_coeff))
  let high_r := right - (st.high_r * high_coeff + right * (1 - high_coeff))
  { low_sum_l := st.low_sum_l + low_l * low_l
    low_sum_r := st.low_sum_r + low_r * low_r
    mid_sum_l := st.mid_sum_l + mid_l * mid_l
    mid_sum_r := st.mid_sum_r + mid_r * mid_r
    high_sum_l := st.high_sum_l + high_l * high_l
    high_sum_r := st.high_sum_r + high_r * high_r
    low_peak_l := max st.low_peak_l |low_l|
    low_peak_r := max st.low_peak_r |low_r|
    mid_peak_l := max st.mid_peak_l |mid_l|
    mid_peak_r := max st.mid_peak_r |mid_r|
    high_peak_l := max st.high_peak_l |high_l|
    high_peak_r := max st.high_peak_r |high_r|
    low_l := low_l
    low_r := low_r
    mid_low_l := mid_low_l
    mid_low_r := mid_low_r
    mid_high_l := mid_high_l
    mid_high_r := mid_high_r
    high_l := high_l
    high_r := high_r }

/-- The bin built from one chunk (main.rs:860-881): RMS is
`sqrt(sum / n)` with `n` the chunk length, peaks are the tracked maxima. -/
def processChunk (chunk : List Frame) : WaveformBin :=
  let st := chunk.foldl chunkStep initChunkState
  let n : ℚ := (chunk.length : ℚ)
  ⟨⟨Rat.sqrt (st.low_sum_l / n), Rat.sqrt (st.low_sum_r / n), st.low_peak_l, st.low_peak_r⟩,
   ⟨Rat.sqrt (st.mid_sum_l / n), Rat.sqrt (st.mid_sum_r / n), st.mid_peak_l, st.mid_peak_r⟩,
   ⟨Rat.sqrt (st.high_sum_l / n), Rat.sqrt (st.high_sum_r / n), st.high_peak_l, st.high_peak_r⟩⟩

/-- One iteration of the bin loop (main.rs:772-798): chunk boundaries, the
all-zero bin for a chunk starting at or past the end, otherwise the bin of
the chunk's frames. -/
def binAt (song : List Frame) (samples_per_bin bin : Nat) : WaveformBin :=
  let chunk_start := bin * samples_per_bin
  let chunk_end := min (chunk_start + samples_per_bin) song.length
  if song.length ≤ chunk_start then zeroBin
  else processChunk ((song.drop chunk_start).take (chunk_end - chunk_start))

/-- `generate_waveform`: empty song yields no bins; otherwise `num_bins`
bins, bin `i` covering `song[i*spb .. min(i*spb + spb, len))` with
`spb = ceil(len / num_bins)`. -/
def generate_waveform (song : List Frame) (num_bins : Nat) : List WaveformBin :=
  if song.isEmpty then []
  else (List.range num_bins).map (binAt song ((song.length + num_bins - 1) / num_bins))

/-! ### Theorems -/

theorem copiesOf_succ (k : Nat) (song : List Frame) :
    copiesOf (k + 1) song = copiesOf k song ++ song := by
  simp [copiesOf, List.replicate_succ', List.flatten_append]

/-- If the chunk fits in the free space, no push fails and the whole chunk is
appended in order. -/
theorem pushLoop_eq_append (cap : Nat) (frames : List Frame) :
    ∀ buf : List Frame, buf.length + frames.length ≤ cap →
    pushLoop cap buf frames = buf ++ frames := by
  induction frames with
  | nil => intro buf _; simp [pushLoop]
  | cons f rest ih =>
    intro buf hle
    have hne : buf.length ≠ cap := by
      simp only [List.length_cons] at hle; omega
    have h2 : (buf ++ [f]).length + rest.length ≤ cap := by
      simp only [List.length_append, List.length_cons, List.length_nil] at *; omega
    simp only [pushLoop, tryPush, hne, if_false, ih (buf ++ [f]) h2, List.append_assoc,
      List.singleton_append]

/-- Every single engine step preserves the C1 invariant. -/
theorem engineStep_inv {cap : Nat} {song : List Frame} {s t : EngineState}
    (hs : EngineStep cap song s t) (ih : engineInv song s) : engineInv song t := by
  cases hs with
  | feed_wrap hp hlen =>
    obtain ⟨hle, k, hk⟩ := ih
    have hph : s.playhead = song.length := le_antisymm hle hlen
    refine ⟨Nat.zero_le _, k + 1, ?_⟩
    show s.popped ++ s.buf = copiesOf (k + 1) song ++ song.take 0
    rw [List.take_zero, List.append_nil, copiesOf_succ, hk, hph, List.take_length]
  | feed_push hp hlt hroom =>
    obtain ⟨hle, k, hk⟩ := ih
    have hC : chunkSize song.length s.playhead ≤ song.length - s.playhead :=
      min_le_right _ _
    have hC1024 : chunkSize song.length s.playhead ≤ 1024 := min_le_left _ _
    have hlen : ((song.drop s.playhead).take (chunkSize song.length s.playhead)).length ≤
        chunkSize song.length s.playhead := by
      rw [List.length_take]; exact min_le_left _ _
    have hroom' : 1024 ≤ slots cap s.buf := hroom
    have hroom'' : 1024 ≤ cap - s.buf.length := hroom'
    have hfit : s.buf.length +
        ((song.drop s.playhead).take (chunkSize song.length s.playhead)).length ≤ cap := by
      omega
    refine ⟨?_, k, ?_⟩
    · show s.playhead + chunkSize song.length s.playhead ≤ song.length
      omega
    show s.popped ++ pushLoop cap s.buf _ =
      copiesOf k song ++ song.take (s.playhead + chunkSize song.length s.playhead)
    rw [pushLoop_eq_append cap _ s.buf hfit, ← List.append_assoc, hk,
      List.append_assoc, ← List.take_add]
  | pop_ok f rest hp hbuf =>
    obtain ⟨hle, k, hk⟩ := ih
    refine ⟨hle, k, ?_⟩
    show (s.popped ++ [f]) ++ rest = copiesOf k song ++ song.take s.playhead
    rw [List.append_assoc, List.singleton_append, ← hbuf, hk]
  | pop_empty hp hbuf => exact ih
  | set_playing b => exact ih

/-- C1: for every sequence of feeder-loop push iterations and output-callback
pop iterations on the ring buffer (single producer, single consumer), the
frames written to the output are exactly the decoded track's frames in
decode order: in every reachable engine state, the popped frames followed by
the still-buffered frames form precisely the decoded stream (whole loops of
the song, then `song[0..playhead]`), so `try_pop` returns frames in push
order (FIFO), never returns a frame that was not previously pushed, and the
feeder pushes `song[playhead], song[playhead+1], ...` consecutively — no
frame reordered, duplicated, or skipped while playing. -/
theorem C1_feeder_ring_fifo (cap : Nat) (song : List Frame) (s : EngineState)
    (h : EngineReachable cap song s) : engineInv song s := by
  induction h with
  | init => exact ⟨Nat.zero_le _, 0, by simp [copiesOf]⟩
  | step _ hs ih => exact engineStep_inv hs ih

/-- Witness for C1: a concrete three-step run (resume, one feeder push, one
callback pop) on a two-frame song reaches the expected state and satisfies
the invariant. -/
theorem C1_feeder_ring_fifo_witness :
    EngineReachable 2048 [((1 : ℚ), (2 : ℚ)), ((3 : ℚ), (4 : ℚ))]
      ⟨true, 2, [((3 : ℚ), (4 : ℚ))], [((1 : ℚ), (2 : ℚ))]⟩ ∧
    engineInv [((1 : ℚ), (2 : ℚ)), ((3 : ℚ), (4 : ℚ))]
      ⟨true, 2, [((3 : ℚ), (4 : ℚ))], [((1 : ℚ), (2 : ℚ))]⟩ := by
  have h0 : EngineReachable 2048 [((1 : ℚ), (2 : ℚ)), ((3 : ℚ), (4 : ℚ))]
      ⟨false, 0, [], []⟩ := .init
  have h1 : EngineReachable 2048 [((1 : ℚ), (2 : ℚ)), ((3 : ℚ), (4 : ℚ))]
      ⟨true, 0, [], []⟩ := .step h0 (.set_playing _ true)
  have h2 : EngineReachable 2048 [((1 : ℚ), (2 : ℚ)), ((3 : ℚ), (4 : ℚ))]
      ⟨true, 2, [((1 : ℚ), (2 : ℚ)), ((3 : ℚ), (4 : ℚ))], []⟩ :=
    .step h1 (.feed_push _ rfl (by decide) (by decide))
  have h3 : EngineReachable 2048 [((1 : ℚ), (2 : ℚ)), ((3 : ℚ), (4 : ℚ))]
      ⟨true, 2, [((3 : ℚ), (4 : ℚ))], [((1 : ℚ), (2 : ℚ))]⟩ :=
    .step h2 (.pop_ok _ _ _ rfl rfl)
  exact ⟨h3, C1_feeder_ring_fifo 2048 _ _ h3⟩

/-! ### Output callback block properties (C2, C7) -/

theorem callbackLoop_length (n : Nat) : ∀ buf : List Frame, (callbackLoop buf n).1.length = n := by
  induction n with
  | zero => intro buf; rfl
  | succ n ih =>
    intro buf
    cases buf with
    | nil => simp [callbackLoop, tryPop, ih]
    | cons f rest => simp [callbackLoop, tryPop, ih]

theorem callbackLoop_empty (n : Nat) : callbackLoop [] n = (List.replicate n silence, []) := by
  induction n with
  | zero => rfl
  | succ n ih => simp [callbackLoop, tryPop, ih, List.replicate_succ]

/-- C2: every invocation of the output callback writes exactly `block_size`
stereo frames (never fewer); and if the ring buffer is empty while
`is_playing` is true, every frame of the block is exactly `(0.0, 0.0)` —
each failed `try_pop` yields a silent frame, and the callback is a total
function (no panic). -/
theorem C2_callback_exact_block (is_playing : Bool) (buf : List Frame) (block_size : Nat) :
    (process_callback is_playing buf block_size).1.length = block_size ∧
    (is_playing = true → buf = [] →
      (process_callback is_playing buf block_size).1 = List.replicate block_size silence) := by
  constructor
  · cases is_playing with
    | false => simp [process_callback]
    | true => simpa [process_callback] using callbackLoop_length block_size buf
  · intro hp hb
    subst hp hb
    simp [process_callback, callbackLoop_empty]

/-- Witness for C2: a playing callback on an empty 4-slot block emits four
silent frames and exactly four frames. -/
theorem C2_callback_exact_block_witness :
    (process_callback true [] 4).1 = List.replicate 4 silence ∧
    (process_callback true [] 4).1.length = 4 :=
  ⟨(C2_callback_exact_block true [] 4).2 rfl rfl, (C2_callback_exact_block true [] 4).1⟩

/-- C7: while `is_playing` is false the callback writes silence `(0.0, 0.0)`
to every frame of the block without popping the ring buffer, so the buffer
contents are unchanged across a pause; and on resume the first popped frame
is the next buffered frame (the head of the buffer) — no frame skipped or
repeated. -/
theorem C7_pause_preserves_buffer (buf : List Frame) (n m : Nat) (f : Frame)
    (rest : List Frame) :
    process_callback false buf n = (List.replicate n silence, buf) ∧
    (process_callback true (f :: rest) (m + 1)).1.head? = some f ∧
    (process_callback true (f :: rest) (m + 1)).2 = (callbackLoop rest m).2 := by
  refine ⟨by simp [process_callback], ?_, ?_⟩ <;>
    simp [process_callback, callbackLoop, tryPop]

/-- C3: every feeder-loop operation — track change (both the pre-decode
zeroing and the successful completion), `SkipForward`, `SkipBackward`,
chunk advance, and end-of-track wrap — preserves `0 ≤ playhead ≤
track.frame_count`, and after each mutation the cached `position_ms`
equals `playhead * 1000 / sample_rate`. -/
theorem C3_transport_invariant (op : FeederOp) (s : TransportState)
    (h : transportInv s) : transportInv (applyOp op s) := by
  obtain ⟨h1, h2⟩ := h
  cases op with
  | change_song newLen => exact ⟨Nat.zero_le _, by simp [applyOp, ms_position]⟩
  | change_song_failed => exact ⟨Nat.zero_le _, by simp [applyOp, ms_position]⟩
  | skip_forward =>
    refine ⟨?_, rfl⟩
    show skip_forward s.playhead s.len ≤ s.len
    unfold skip_forward; split <;> omega
  | skip_backward =>
    refine ⟨?_, rfl⟩
    show skip_backward s.playhead ≤ s.len
    unfold skip_backward; split <;> omega
  | feed room =>
    show transportInv (if s.len ≤ s.playhead then _ else _)
    split
    · exact ⟨Nat.zero_le _, by simp [ms_position]⟩
    · split
      · refine ⟨?_, rfl⟩
        show s.playhead + chunkSize s.len s.playhead ≤ s.len
        have := min_le_right 1024 (s.len - s.playhead)
        unfold chunkSize; omega
      · exact ⟨h1, h2⟩

/-- Witness for C3: the invariant holds at rest on a 480000-frame track and
is preserved by a `SkipForward`. -/
theorem C3_transport_invariant_witness :
    transportInv ⟨480000, 0, 0⟩ ∧ transportInv (applyOp .skip_forward ⟨480000, 0, 0⟩) :=
  ⟨⟨Nat.zero_le _, rfl⟩, C3_transport_invariant .skip_forward ⟨480000, 0, 0⟩ ⟨Nat.zero_le _, rfl⟩⟩

/-- C4: `SkipForward`/`SkipBackward` move the playhead by a fixed 5-second
window (240000 frames at 48 kHz), clamped to `[0, track.frame_count]`, and
`position_ms` is recomputed immediately.  Concretely on a 480000-frame
track: from 0, one `SkipForward` gives playhead 240000 and 5000 ms; a second
gives the clamp 480000 and 10000 ms (not 15000); `SkipBackward` at or below
the window clamps to 0, never a negative or wrapped value. -/
theorem C4_skip_window_clamp :
    skip_forward 0 480000 = 240000 ∧ ms_position (skip_forward 0 480000) = 5000 ∧
    skip_forward 240000 480000 = 480000 ∧
    ms_position (skip_forward 240000 480000) = 10000 ∧
    (∀ pos len : Nat, skip_forward pos len ≤ len ∨ skip_forward pos len = pos + skip_amount) ∧
    (∀ pos len : Nat, pos ≤ len → skip_forward pos len ≤ len) ∧
    (∀ pos : Nat, pos ≤ skip_amount → skip_backward pos = 0) ∧
    (∀ pos : Nat, skip_backward pos ≤ pos) := by
  refine ⟨by decide, by decide, by decide, by decide, ?_, ?_, ?_, ?_⟩
  · intro pos len; unfold skip_forward; split
    · exact Or.inl le_rfl
    · exact Or.inr rfl
  · intro pos len h; unfold skip_forward; split <;> omega
  · intro pos h; unfold skip_backward; split <;> omega
  · intro pos; unfold skip_backward; split <;> omega

/-- Witness for C4: the backward clamp at playhead 100 (below the window)
lands exactly on 0. -/
theorem C4_skip_window_clamp_witness : skip_backward 100 = 0 :=
  C4_skip_window_clamp.2.2.2.2.2.2.1 100 (by decide)

/-- Monotone division bound used for every integer sample representation. -/
theorem div_mono_bounds {lo x hi d : ℚ} (hd : 0 < d) (h1 : lo ≤ x) (h2 : x ≤ hi) :
    lo / d ≤ x / d ∧ x / d ≤ hi / d :=
  ⟨(div_le_div_iff_of_pos_right hd).mpr h1, (div_le_div_iff_of_pos_right hd).mpr h2⟩

/-- C8 counterexample: the claim "every decoded sample lies in [-1.0, 1.0]"
fails on the code.  The valid 24-bit unsigned buffer holding the maximal
sample 16777215 decodes (by the source's division by 8388607) to
`16777215/8388607 > 2`, outside `[-1, 1]`. -/
theorem C8_normalization_counterexample :
    ((∀ x ∈ [16777215], x < 16777216) ∧ (∀ x ∈ ([0] : List Nat), x < 16777216)) ∧
    decode_audio_buffer (.u24 [16777215] [0]) = [((16777215 : ℚ) / 8388607, 0)] ∧
    ¬ (∀ p ∈ decode_audio_buffer (.u24 [16777215] [0]),
        -1 ≤ p.1 ∧ p.1 ≤ 1 ∧ -1 ≤ p.2 ∧ p.2 ≤ 1) := by
  have hdec : decode_audio_buffer (.u24 [16777215] [0]) = [((16777215 : ℚ) / 8388607, 0)] := by
    simp [decode_audio_buffer]
  refine ⟨by decide, hdec, ?_⟩
  intro hall
  rw [hdec] at hall
  have h2 := (hall ((16777215 : ℚ) / 8388607, 0) (by simp)).2.1
  norm_num at h2

/-- C8 amended: each decoded packet sample is divided by the source's
per-representation divisor, and the decoded values satisfy the actual
per-representation ranges of `decodeBound`: inside `[-1, 1]` for unsigned
8/16/32-bit and signed 8-bit; dipping to `-2^(w-1)/(2^(w-1)-1)`, slightly
below `-1`, at the most negative signed 16/24/32-bit sample; reaching
`16777215/8388607 ≈ 2.0000001` for unsigned 24-bit; floats pass through. -/
theorem C8_amended_normalization (buf : AudioBufferRef) (h : validBuffer buf) :
    ∀ p ∈ decode_audio_buffer buf, decodeBound buf p.1 ∧ decodeBound buf p.2 := by
  cases buf with
  | f32 c0 c1 =>
    rintro ⟨a, b⟩ hp
    obtain ⟨ha, hb⟩ := List.of_mem_zip hp
    exact ⟨Or.inl ha, Or.inr hb⟩
  | f64 c0 c1 =>
    rintro ⟨a, b⟩ hp
    obtain ⟨ha, hb⟩ := List.of_mem_zip hp
    exact ⟨Or.inl ha, Or.inr hb⟩
  | u16 c0 c1 =>
    intro p hp
    simp only [decode_audio_buffer, List.mem_map] at hp
    obtain ⟨⟨a, b⟩, hab, rfl⟩ := hp
    obtain ⟨ha, hb⟩ := List.of_mem_zip hab
    have ha2 : (a : ℚ) ≤ 65535 := by exact_mod_cast Nat.lt_succ_iff.mp (h.1 a ha)
    have hb2 : (b : ℚ) ≤ 65535 := by exact_mod_cast Nat.lt_succ_iff.mp (h.2 b hb)
    constructor <;> constructor
    · positivity
    · rw [div_le_one (by norm_num)]; exact ha2
    · positivity
    · rw [div_le_one (by norm_num)]; exact hb2
  | u32 c0 c1 =>
    intro p hp
    simp only [decode_audio_buffer, List.mem_map] at hp
    obtain ⟨⟨a, b⟩, hab, rfl⟩ := hp
    obtain ⟨ha, hb⟩ := List.of_mem_zip hab
    have ha2 : (a : ℚ) ≤ 4294967295 := by exact_mod_cast Nat.lt_succ_iff.mp (h.1 a ha)
    have hb2 : (b : ℚ) ≤ 4294967295 := by exact_mod_cast Nat.lt_succ_iff.mp (h.2 b hb)
    constructor <;> constructor
    · positivity
    · rw [div_le_one (by norm_num)]; exact ha2
    · positivity
    · rw [div_le_one (by norm_num)]; exact hb2
  | u8 c0 c1 =>
    intro p hp
    simp only [decode_audio_buffer, List.mem_map] at hp
    obtain ⟨⟨a, b⟩, hab, rfl⟩ := hp
    obtain ⟨ha, hb⟩ := List.of_mem_zip hab
    have ha2 : (a : ℚ) ≤ 255 := by exact_mod_cast Nat.lt_succ_iff.mp (h.1 a ha)
    have hb2 : (b : ℚ) ≤ 255 := by exact_mod_cast Nat.lt_succ_iff.mp (h.2 b hb)
    have ha0 : (0 : ℚ) ≤ (a : ℚ) := by positivity
    have hb0 : (0 : ℚ) ≤ (b : ℚ) := by positivity
    constructor <;> constructor
    · rw [le_div_iff₀ (by norm_num : (0 : ℚ) < 128)]; linarith
    · rw [div_le_one (by norm_num)]; linarith
    · rw [le_div_iff₀ (by norm_num : (0 : ℚ) < 128)]; linarith
    · rw [div_le_one (by norm_num)]; linarith
  | s8 c0 c1 =>
    intro p hp
    simp only [decode_audio_buffer, List.mem_map] at hp
    obtain ⟨⟨a, b⟩, hab, rfl⟩ := hp
    obtain ⟨ha, hb⟩ := List.of_mem_zip hab
    have ha2 : (-128 : ℚ) ≤ (a : ℚ) ∧ (a : ℚ) ≤ 127 := by
      obtain ⟨h1, h2⟩ := h.1 a ha
      exact ⟨by exact_mod_cast h1, by exact_mod_cast Int.lt_add_one_iff.mp h2⟩
    have hb2 : (-128 : ℚ) ≤ (b : ℚ) ∧ (b : ℚ) ≤ 127 := by
      obtain ⟨h1, h2⟩ := h.2 b hb
      exact ⟨by exact_mod_cast h1, by exact_mod_cast Int.lt_add_one_iff.mp h2⟩
    constructor <;> constructor
    · rw [le_div_iff₀ (by norm_num : (0 : ℚ) < 128)]; linarith [ha2.1]
    · rw [div_le_one (by norm_num)]; linarith [ha2.2]
    · rw [le_div_iff₀ (by norm_num : (0 : ℚ) < 128)]; linarith [hb2.1]
    · rw [div_le_one (by norm_num)]; linarith [hb2.2]
  | s16 c0 c1 =>
    intro p hp
    simp only [decode_audio_buffer, List.mem_map] at hp
    obtain ⟨⟨a, b⟩, hab, rfl⟩ := hp
    obtain ⟨ha, hb⟩ := List.of_mem_zip hab
    have ha2 : (-32768 : ℚ) ≤ (a : ℚ) ∧ (a : ℚ) ≤ 32767 := by
      obtain ⟨h1, h2⟩ := h.1 a ha
      exact ⟨by exact_mod_cast h1, by exact_mod_cast Int.lt_add_one_iff.mp h2⟩
    have hb2 : (-32768 : ℚ) ≤ (b : ℚ) ∧ (b : ℚ) ≤ 32767 := by
      obtain ⟨h1, h2⟩ := h.2 b hb
      exact ⟨by exact_mod_cast h1, by exact_mod_cast Int.lt_add_one_iff.mp h2⟩
    constructor <;> constructor
    · exact (div_mono_bounds (by norm_num) ha2.1 ha2.2).1
    · rw [div_le_one (by norm_num)]; linarith [ha2.2]
    · exact (div_mono_bounds (by norm_num) hb2.1 hb2.2).1
    · rw [div_le_one (by norm_num)]; linarith [hb2.2]
  | u24 c0 c1 =>
    intro p hp
    simp only [decode_audio_buffer, List.mem_map] at hp
    obtain ⟨⟨a, b⟩, hab, rfl⟩ := hp
    obtain ⟨ha, hb⟩ := List.of_mem_zip hab
    have ha2 : (a : ℚ) ≤ 16777215 := by exact_mod_cast Nat.lt_succ_iff.mp (h.1 a ha)
    have hb2 : (b : ℚ) ≤ 16777215 := by exact_mod_cast Nat.lt_succ_iff.mp (h.2 b hb)
    constructor <;> constructor
    · positivity
    · exact (div_mono_bounds (by norm_num) (by positivity) ha2).2
    · positivity
    · exact (div_mono_bounds (by norm_num) (by positivity) hb2).2
  | s24 c0 c1 =>
    intro p hp
    simp only [decode_audio_buffer, List.mem_map] at hp
    obtain ⟨⟨a, b⟩, hab, rfl⟩ := hp
    obtain ⟨ha, hb⟩ := List.of_mem_zip hab
    have ha2 : (-8388608 : ℚ) ≤ (a : ℚ) ∧ (a : ℚ) ≤ 8388607 := by
      obtain ⟨h1, h2⟩ := h.1 a ha
      exact ⟨by exact_mod_cast h1, by exact_mod_cast Int.lt_add_one_iff.mp h2⟩
    have hb2 : (-8388608 : ℚ) ≤ (b : ℚ) ∧ (b : ℚ) ≤ 8388607 := by
      obtain ⟨h1, h2⟩ := h.2 b hb
      exact ⟨by exact_mod_cast h1, by exact_mod_cast Int.lt_add_one_iff.mp h2⟩
    constructor <;> constructor
    · exact (div_mono_bounds (by norm_num) ha2.1 ha2.2).1
    · rw [div_le_one (by norm_num)]; linarith [ha2.2]
    · exact (div_mono_bounds (by norm_num) hb2.1 hb2.2).1
    · rw [div_le_one (by norm_num)]; linarith [hb2.2]
  | s32 c0 c1 =>
    intro p hp
    simp only [decode_audio_buffer, List.mem_map] at hp
    obtain ⟨⟨a, b⟩, hab, rfl⟩ := hp
    obtain ⟨ha, hb⟩ := List.of_mem_zip hab
    have ha2 : (-2147483648 : ℚ) ≤ (a : ℚ) ∧ (a : ℚ) ≤ 2147483647 := by
      obtain ⟨h1, h2⟩ := h.1 a ha
      exact ⟨by exact_mod_cast h1, by exact_mod_cast Int.lt_add_one_iff.mp h2⟩
    have hb2 : (-2147483648 : ℚ) ≤ (b : ℚ) ∧ (b : ℚ) ≤ 2147483647 := by
      obtain ⟨h1, h2⟩ := h.2 b hb
      exact ⟨by exact_mod_cast h1, by exact_mod_cast Int.lt_add_one_iff.mp h2⟩
    constructor <;> constructor
    · exact (div_mono_bounds (by norm_num) ha2.1 ha2.2).1
    · rw [div_le_one (by norm_num)]; linarith [ha2.2]
    · exact (div_mono_bounds (by norm_num) hb2.1 hb2.2).1
    · rw [div_le_one (by norm_num)]; linarith [hb2.2]

/-- Witness for the amended C8 theorem: the extreme valid signed 16-bit
buffer `[-32768], [32767]` decodes within the amended per-representation
bounds. -/
theorem C8_amended_normalization_witness :
    decodeBound (.s16 [-32768] [32767]) ((-32768 : ℚ) / 32767) ∧
    decodeBound (.s16 [-32768] [32767]) ((32767 : ℚ) / 32767) :=
  C8_amended_normalization (.s16 [-32768] [32767]) ⟨by decide, by decide⟩
    ((-32768 : ℚ) / 32767, (32767 : ℚ) / 32767) (by norm_num [decode_audio_buffer])

/-- C6: on every `ChangeTrack` command with a successful decode, the feeder
performs its stores in exactly this order: `is_playing := false`,
`playhead := 0`, `position := 0`, decode, publish the waveform, publish the
new `duration`, and only then `is_playing := true`; consequently a reader
polling the globals at any point after the handler's first store that sees
`is_playing = true` sees the new duration already published and the playhead
zeroed — never a stale duration paired with a fresh playhead. -/
theorem C6_change_track_write_order (inp : DecodeInput) (song : List Frame)
    (h : decode_flac_to_vec inp = .ok song) :
    (handleChangeSong inp).1 =
      [.set_playing false, .set_playhead 0, .set_position 0, .send_waveform,
       .set_duration (ms_position song.length), .set_playing true] ∧
    (handleChangeSong inp).2 = false ∧
    (∀ (g0 : Globals) (k : Nat), 1 ≤ k →
      (applyEvs g0 ((handleChangeSong inp).1.take k)).is_playing = true →
      (applyEvs g0 ((handleChangeSong inp).1.take k)).duration = ms_position song.length ∧
      (applyEvs g0 ((handleChangeSong inp).1.take k)).playhead = 0) := by
  have hh : handleChangeSong inp =
      ([.set_playing false, .set_playhead 0, .set_position 0, .send_waveform,
        .set_duration (ms_position song.length), .set_playing true], false) := by
    simp [handleChangeSong, h]
  rw [hh]
  refine ⟨rfl, rfl, ?_⟩
  intro g0 k hk
  rcases k with _ | _ | _ | _ | _ | _ | k
  · omega
  · simp [applyEvs, applyEv]
  · simp [applyEvs, applyEv]
  · simp [applyEvs, applyEv]
  · simp [applyEvs, applyEv]
  · simp [applyEvs, applyEv]
  · rw [List.take_of_length_le (by simp)]
    intro _
    exact ⟨rfl, rfl⟩

/-- Witness for C6: on a trivially decodable input (no packets, frame count
present), the handler emits exactly the six stores in order. -/
theorem C6_change_track_write_order_witness :
    (handleChangeSong ⟨true, true, true, [], true, some 480000, true⟩).1 =
      [.set_playing false, .set_playhead 0, .set_position 0, .send_waveform,
       .set_duration 0, .set_playing true] :=
  (C6_change_track_write_order ⟨true, true, true, [], true, some 480000, true⟩ [] rfl).1

/-- C5 counterexample: the claim says a decode failure leaves "the feeder
loop keeps running".  On the code, `decode_flac_to_vec` reaches the failure
through `.expect`, which panics: on the concrete `ChangeTrack` request whose
file fails to open, the handler terminates the feeder thread (the `true`
panic flag) instead of returning to the loop. -/
theorem C5_decode_failure_counterexample :
    (handleChangeSong ⟨false, true, true, [], true, some 0, true⟩).2 = true := rfl

/-- C5 amended: a decode failure panics the feeder thread — fatal to the
feeder loop, not only to the request.  The rest of the claim stands: the
stores already performed leave the transport paused (`is_playing = false`)
with playhead and position zeroed, and the process survives: the audio
callback keeps running and, with `is_playing = false`, emits pure silence
while leaving the ring buffer untouched. -/
theorem C5_decode_failure_amended (inp : DecodeInput) (e : String)
    (h : decode_flac_to_vec inp = .error e) :
    (handleChangeSong inp).2 = true ∧
    (handleChangeSong inp).1 = [.set_playing false, .set_playhead 0, .set_position 0] ∧
    (∀ g0 : Globals,
      (applyEvs g0 (handleChangeSong inp).1).is_playing = false ∧
      (applyEvs g0 (handleChangeSong inp).1).playhead = 0 ∧
      (applyEvs g0 (handleChangeSong inp).1).position = 0) ∧
    (∀ (buf : List Frame) (n : Nat),
      process_callback false buf n = (List.replicate n silence, buf)) := by
  have hh : handleChangeSong inp =
      ([.set_playing false, .set_playhead 0, .set_position 0], true) := by
    simp [handleChangeSong, h]
  rw [hh]
  refine ⟨rfl, rfl, fun g0 => ⟨rfl, rfl, rfl⟩, fun buf n => by simp [process_callback]⟩

/-- Witness for the amended C5 theorem: a request whose memory map fails. -/
theorem C5_decode_failure_amended_witness :
    (handleChangeSong ⟨true, false, true, [], true, some 0, true⟩).1 =
      [.set_playing false, .set_playhead 0, .set_position 0] :=
  (C5_decode_failure_amended ⟨true, false, true, [], true, some 0, true⟩
    "Failed to mmap file" rfl).2.1

theorem chunkStep_silence : chunkStep initChunkState silence = initChunkState := by
  simp [chunkStep, initChunkState, silence]

theorem foldl_chunkStep_silence (chunk : List Frame) (h : ∀ f ∈ chunk, f = silence) :
    chunk.foldl chunkStep initChunkState = initChunkState := by
  induction chunk with
  | nil => rfl
  | cons f rest ih =>
    have hf : f = silence := h f (List.mem_cons_self f rest)
    rw [List.foldl_cons, hf, chunkStep_silence]
    exact ih (fun g hg => h g (List.mem_cons_of_mem f hg))

theorem processChunk_silence (chunk : List Frame) (h : ∀ f ∈ chunk, f = silence) :
    processChunk chunk = zeroBin := by
  unfold processChunk
  rw [foldl_chunkStep_silence chunk h]
  simp [initChunkState, zeroBin, zeroBand, Rat.sqrt]

/-- C9: on a track whose frames are all `(0.0, 0.0)`, the analyzer with
`N = 100` bins returns bins in which every band's RMS and peak values for
both channels are exactly `0.0`.  (The analyzer is a pure Lean function of
the track and the bin count, so determinism/re-runnability is definitional:
equal inputs give the identical bin array.) -/
theorem C9_waveform_zero_track (song : List Frame) (h : ∀ f ∈ song, f = silence) :
    ∀ b ∈ generate_waveform song 100, b = zeroBin := by
  intro b hb
  by_cases hs : song.isEmpty
  · rw [generate_waveform, if_pos hs] at hb
    simp at hb
  · rw [generate_waveform, if_neg hs] at hb
    obtain ⟨i, _, rfl⟩ := List.mem_map.mp hb
    simp only [binAt]
    split
    · rfl
    · apply processChunk_silence
      intro f hf
      exact h f (List.mem_of_mem_drop (List.mem_of_mem_take hf))

/-- Witness for C9: on a concrete three-frame silent track, the first bin
(the one computed from actual frames) is the all-zero bin. -/
theorem C9_waveform_zero_track_witness :
    binAt (List.replicate 3 silence) 1 0 = zeroBin :=
  C9_waveform_zero_track (List.replicate 3 silence)
    (fun f hf => List.eq_of_mem_replicate hf)
    (binAt (List.replicate 3 silence) 1 0)
    (by
      have h0 : (0 : Nat) ∈ List.range 100 := by decide
      simpa [generate_waveform] using
        List.mem_map_of_mem (binAt (List.replicate 3 silence) 1) h0)

/-- C10: the analyzer's edge cases.  An empty track yields an empty bin
array (not `N` bins); a non-empty track yields exactly `N` bins; bin `i`
is the all-zero bin when its chunk start `i * ceil(len/N)` is at or past
the end of the track, and otherwise is computed from exactly the frames
`[i*ceil(len/N), min((i+1)*ceil(len/N), len))`. -/
theorem C10_waveform_bins_structure :
    (∀ N : Nat, generate_waveform [] N = []) ∧
    (∀ (song : List Frame) (N : Nat), song ≠ [] → (generate_waveform song N).length = N) ∧
    (∀ (song : List Frame) (N i : Nat), song ≠ [] → i < N →
      (generate_waveform song N)[i]? =
        some (
          if song.length ≤ i * ((song.length + N - 1) / N) then zeroBin
          else processChunk ((song.drop (i * ((song.length + N - 1) / N))).take
            (min ((i + 1) * ((song.length + N - 1) / N)) song.length
              - i * ((song.length + N - 1) / N))))) := by
  refine ⟨fun N => rfl, ?_, ?_⟩
  · intro song N hne
    have hs : song.isEmpty = false := by simpa [List.isEmpty_iff] using hne
    simp [generate_waveform, hs]
  · intro song N i hne hi
    have hs : song.isEmpty = false := by simpa [List.isEmpty_iff] using hne
    rw [generate_waveform, hs]
    simp only [Bool.false_eq_true, if_false, List.getElem?_map, List.getElem?_range, hi,
      if_pos hi]
    have harith : (i + 1) * ((song.length + N - 1) / N) =
        i * ((song.length + N - 1) / N) + (song.length + N - 1) / N := by ring
    rw [harith]
    rfl

/-- Witness for C10: on a one-frame track with two requested bins, the
second bin's chunk starts at the end of the track and is the all-zero bin. -/
theorem C10_waveform_bins_structure_witness :
    (generate_waveform [silence] 2)[1]? = some zeroBin :=
  C10_waveform_bins_structure.2.2 [silence] 2 1 (by simp) (by decide)
